import Mathlib

/-
Verification of the bun-wh release-deployment webhook.

Shallow embedding of the TypeScript sources:
  * src/unnamed/part_000  — webhook server (verifySignature, handleRelease)
  * src/unnamed/part_002  — ReleaseManager (deploy, rollback, cleanup,
                            downloadAndExtract, updateWebRoot)
  * src/src/utils.ts      — createSymlink, copyDirectoryRecursive
  * src/src/types.ts      — Config, ProjectConfig, ReleaseInfo

Conventions of the embedding:
  * HMAC-SHA256 hex digests are abstracted as an oracle function
    `hmacHex : String → String → String` (the digest of `Bun.CryptoHasher`).
  * The filesystem of one project is a record `FsState`: the entries of
    `releases/<project>/` (directory name paired with its flat contents),
    the target of the `current/<project>` symlink, and the serving
    directory (`webRoot`) contents.
  * External effects that can fail (GitHub API call, curl download, unzip,
    hook commands, fs calls inside updateWebRoot and cleanup) are driven by
    an `Env` record of outcome flags, so one `Env` fixes one run of deploy.
  * JavaScript exception control flow becomes explicit result values; a
    missing header or `undefined` is `Option.none`, and JS string
    truthiness (`if (s)`) is embedded as an explicit test against `""`.
  * All executions are sequential.  The source launches
    `copyDirectoryRecursive` without `await` (release-manager variant,
    part_002 line 182); the embedding treats the copy as having completed.
-/

namespace BunWh

/-- Flat contents of one directory: (file name, file data) pairs. -/
abbrev DirContents := List (String × String)

/-- ProjectConfig from src/src/types.ts (the part_001 variant adds
`assetName`; the fields used by the embedded code are kept). -/
structure ProjectConfig where
  name : String
  webRoot : String
  githubRepo : String
  keepReleases : Nat
  postExtract : Option (List String) := none
  preRollback : Option (List String) := none
  branch : Option String := none
  asset : String := ""
deriving DecidableEq, Repr

/-- ReleaseInfo from src/src/types.ts (fields built in handleRelease,
src/unnamed/part_000 lines 117-124). -/
structure ReleaseInfo where
  tagName : String
  zipUrl : String
  isDraft : Bool
  isPrerelease : Bool
  repositoryName : String
  targetCommitish : String
deriving DecidableEq, Repr

/-- Config from src/src/types.ts; `projects` is the list of values of the
config record (handleRelease iterates `Object.values(config.projects)`). -/
structure Config where
  projects : List ProjectConfig
  webhookSecret : String
  githubToken : Option String := none
  baseDir : String := ""
deriving DecidableEq, Repr

/-- The fields of the parsed webhook JSON body that handleRelease reads
(src/unnamed/part_000 lines 73-124). -/
structure WebhookPayload where
  action : String
  repoFullName : String
  tagName : String
  zipballUrl : String
  draft : Bool
  prerelease : Bool
  targetCommitish : String
deriving DecidableEq, Repr

/-- Embeds verifySignature (src/unnamed/part_000 lines 43-48).
`hmacHex secret body` abstracts
`new Bun.CryptoHasher("sha256", secret).update(body).digest("hex")`.
`signature` is the raw `x-hub-signature-256` header, `none` when missing;
`if (!signature) return false` also rejects a present empty string. -/
def verifySignature (hmacHex : String → String → String) (secret : String)
    (signature : Option String) (body : String) : Bool :=
  match signature with
  | none => false
  | some s => if s = "" then false else decide (s = "sha256=" ++ hmacHex secret body)

/-- Embeds the project lookup of handleRelease (lines 86-88):
`Object.values(config.projects).find(p => p.githubRepo === full_name)`. -/
def findProject (projects : List ProjectConfig) (repoFullName : String) :
    Option ProjectConfig :=
  projects.find? (fun p => decide (p.githubRepo = repoFullName))

/-- Embeds the branch guard of handleRelease (line 103):
`project.branch && release.release.target_commitish !== project.branch`.
JS truthiness makes an empty-string branch filter inert. -/
def branchMismatch (branch : Option String) (target : String) : Bool :=
  match branch with
  | none => false
  | some b => if b = "" then false else decide (target ≠ b)

/-- The observable outcome of one handleRelease call: HTTP status, response
body (for the plain-text branches), and the ReleaseInfo passed to
`releaseManager.deploy` when the core was invoked. -/
structure HandlerResult where
  status : Nat
  body : String
  deployCalled : Option ReleaseInfo
deriving DecidableEq, Repr

/-- Embeds handleRelease (src/unnamed/part_000 lines 50-158).  `payload` is
the result of `JSON.parse(body)`; `sigHeader` and `evHeader` are the
`x-hub-signature-256` and `x-github-event` headers; `deployOk` is the
outcome of the awaited `releaseManager.deploy` call (`false` reaches the
outer catch, status 500). -/
def handleRelease (hmacHex : String → String → String) (cfg : Config)
    (body : String) (payload : WebhookPayload)
    (sigHeader evHeader : Option String) (deployOk : Bool) : HandlerResult :=
  if verifySignature hmacHex cfg.webhookSecret sigHeader body = false then
    { status := 401, body := "Invalid signature", deployCalled := none }
  else if evHeader ≠ some "release" then
    { status := 400, body := "This endpoint only handles release events",
      deployCalled := none }
  else if payload.action ≠ "published" then
    { status := 200, body := "Ignoring action", deployCalled := none }
  else
    match findProject cfg.projects payload.repoFullName with
    | none =>
      { status := 404, body := "No matching project configuration found",
        deployCalled := none }
    | some project =>
      if branchMismatch project.branch payload.targetCommitish then
        { status := 400, body := "Branch mismatch", deployCalled := none }
      else
        let info : ReleaseInfo :=
          { tagName := payload.tagName
            zipUrl := payload.zipballUrl
            isDraft := payload.draft
            isPrerelease := payload.prerelease
            repositoryName := payload.repoFullName
            targetCommitish := payload.targetCommitish }
        if deployOk then
          { status := 200, body := "Release processed successfully",
            deployCalled := some info }
        else
          { status := 500, body := "Failed to process release",
            deployCalled := some info }

/-! ### Downloader/Extractor byte-level model (part_002, downloadAndExtract) -/

/-- The four-byte ZIP local-file-header test of the header scan
(part_002 lines 113-118): `bytes[i] = 0x50, 0x4b, 0x03, 0x04`. -/
def magicAt (bytes : List Nat) (i : Nat) : Bool :=
  bytes[i]? == some 0x50 && bytes[i + 1]? == some 0x4b &&
    bytes[i + 2]? == some 0x03 && bytes[i + 3]? == some 0x04

/-- The double-dash test of the boundary scan (part_002 line 127):
`bytes[i] === 0x2d && bytes[i-1] === 0x2d`; at `i = 0` the JS read
`bytes[-1]` is `undefined` and the test is false, encoded by `1 ≤ i`. -/
def dashPairAt (bytes : List Nat) (i : Nat) : Bool :=
  bytes[i]? == some 0x2d && (decide (1 ≤ i) && bytes[i - 1]? == some 0x2d)

/-- Ascending linear search `i, i+1, ..., i+fuel-1` for the first index
satisfying `p`: the loop `for (let i = lo; i < bound; i++)`. -/
def loopFind (p : Nat → Bool) : Nat → Nat → Option Nat
  | _, 0 => none
  | i, fuel + 1 => if p i then some i else loopFind p (i + 1) fuel

/-- Descending linear search `n, n-1, ..., 0` for the first (that is,
largest) index satisfying `p`: the loop `for (let i = hi; i >= 0; i--)`. -/
def loopFindDown (p : Nat → Bool) : Nat → Option Nat
  | 0 => if p 0 then some 0 else none
  | i + 1 => if p (i + 1) then some (i + 1) else loopFindDown p i

/-- Embeds the ZIP-header scan of part_002 lines 111-122: the loop runs
`i = 0, ..., bytes.length - 5` (`i < bytes.length - 4`) and stops at the
first match.  Natural subtraction agrees with the JS bound: for
`bytes.length < 4` the JS bound is negative and the loop body never runs. -/
def findZipStart (bytes : List Nat) : Option Nat :=
  loopFind (magicAt bytes) 0 (bytes.length - 4)

/-- Embeds the boundary scan of part_002 lines 124-132: `endIndex` starts
at `bytes.length`, the loop runs `i = bytes.length - 1` down to `0`, and
the first (largest) double-dash position `i` sets `endIndex := i - 1`. -/
def findBoundaryEnd (bytes : List Nat) : Nat :=
  match bytes.length with
  | 0 => 0
  | n + 1 =>
    match loopFindDown (dashPairAt bytes) n with
    | some i => i - 1
    | none => n + 1

/-- `bytes.slice(startIndex, endIndex)` of part_002 line 139. -/
def cleanedSlice (bytes : List Nat) (s : Nat) : List Nat :=
  (bytes.take (findBoundaryEnd bytes)).drop s

/-- The error cases of downloadAndExtract. -/
inductive ExtractError where
  | zipHeaderNotFound
  | emptyAfterCleaning
  | unzipFailed
deriving DecidableEq, Repr

/-- Outcome of one downloadAndExtract call. -/
inductive ExtractResult where
  | ok
  | error (e : ExtractError)
deriving DecidableEq, Repr

/-- Embeds steps 2-3 of downloadAndExtract (part_002 lines 106-161) at the
level of the staging directory, entered after a successful curl download of
`bytes` into `<targetDir>/release.zip`.  The cleaned slice overwrites
release.zip (line 140) before the empty check (line 145); `unzipOk` is the
exit status of `unzip`, and `extractedFiles` the entries it unpacks; on
success release.zip is deleted (line 160).  The pair returned is the
resulting contents of the (initially empty) staging directory and the
outcome; on error the thrown exception propagates, so no later step deletes
the intermediate archive. -/
def downloadAndExtractFs (bytes : List Nat) (unzipOk : Bool)
    (extractedFiles : List (String × List Nat)) :
    List (String × List Nat) × ExtractResult :=
  match findZipStart bytes with
  | none => ([("release.zip", bytes)], .error .zipHeaderNotFound)
  | some s =>
    let cleaned := cleanedSlice bytes s
    if cleaned.length = 0 then
      ([("release.zip", cleaned)], .error .emptyAfterCleaning)
    else if unzipOk = false then
      ([("release.zip", cleaned)], .error .unzipFailed)
    else
      (extractedFiles, .ok)

/-! ### The symlink swap (src/src/utils.ts createSymlink, lines 47-62) -/

/-- The two filesystem mutations of createSymlink, in program order:
`await rm(link, { recursive: true, force: true })` then
`await spawn(["ln", "-sfn", target, link])`.  (The part_002 import resolves
to this utils.ts function; the release-manager.ts-local variant performs
the same `rm` followed by `symlink`.) -/
inductive SymlinkOp where
  | rmLink
  | lnSfn (target : String)
deriving DecidableEq, Repr

/-- Effect of one createSymlink step on the pointer: `rm` leaves no link,
`ln -sfn target` leaves a link to `target`. -/
def applySymlinkOp : Option String → SymlinkOp → Option String
  | _, .rmLink => none
  | _, .lnSfn t => some t

/-- The operation sequence issued by createSymlink for a given target. -/
def createSymlinkOps (target : String) : List SymlinkOp :=
  [SymlinkOp.rmLink, SymlinkOp.lnSfn target]

/-- Every pointer state reachable while a step sequence executes, from the
initial state through each intermediate state to the final one. -/
def statesDuring (link : Option String) : List SymlinkOp → List (Option String)
  | [] => [link]
  | op :: rest => link :: statesDuring (applySymlinkOp link op) rest

/-! ### ReleaseManager state machine (src/unnamed/part_002) -/

/-- First entry of an association list with the given key, as the directory
reads of the source resolve a name inside a listed directory. -/
def getEntry {α : Type} (l : List (String × α)) (name : String) : Option α :=
  match l with
  | [] => none
  | e :: rest => if e.1 = name then some e.2 else getEntry rest name

/-- Contents of the release directory `name` under `releases/<project>/`
(the empty directory when it does not exist). -/
def getDir (rs : List (String × DirContents)) (name : String) : DirContents :=
  (getEntry rs name).getD []

/-- The per-project filesystem state the ReleaseManager mutates:
the entries of `releases/<project>/`, the target of the
`current/<project>` symlink (`none` when absent), and the serving
directory (`webRoot`) contents. -/
structure FsState where
  releases : List (String × DirContents)
  current : Option String
  webRoot : DirContents
deriving DecidableEq, Repr

/-- `mkdir(releaseDir, { recursive: true })` (part_002 line 211): a no-op
when the directory exists, otherwise a new empty directory. -/
def addDir (rs : List (String × DirContents)) (name : String) :
    List (String × DirContents) :=
  if name ∈ rs.map Prod.fst then rs else rs ++ [(name, [])]

/-- Replace the contents of directory `name` (population of the staged
release directory by extraction). -/
def setContents : List (String × DirContents) → String → DirContents →
    List (String × DirContents)
  | [], _, _ => []
  | e :: rest, name, c =>
    (if e.1 = name then (e.1, c) else e) :: setContents rest name c

/-- `realpath(currentLink)` (part_002 line 223): resolves only when the
link exists and its target directory exists; otherwise it throws, which the
source turns into an absent previous release. -/
def realpathCurrent (s : FsState) : Option String :=
  match s.current with
  | none => none
  | some t => if t ∈ s.releases.map Prod.fst then some t else none

/-- Embeds copyDirectoryRecursive (src/src/utils.ts lines 64-114) on the
one-level directory model: with `clearDestination` the destination is
removed first; each source entry is then copied unless it already exists
and `replace` is unset.  Per-entry copy errors are swallowed by the source
(line 104), so the embedding is the error-free path. -/
def copyDirectoryRecursive (src dest : DirContents)
    (clearDestination replace : Bool) : DirContents :=
  let d0 := if clearDestination then [] else dest
  src.foldl
    (fun d e => if (getEntry d e.1).isSome && !replace then d else d ++ [e]) d0

/-- Embeds updateWebRoot (part_002 lines 168-193) given the contents `src`
of the release directory being mirrored.  `if (!this.config.webRoot)
return` skips everything for an empty webRoot; `fsOk` is the outcome of the
mkdir/readdir/rm calls on the webRoot (a failure reaches the catch on line
190 and rethrows); otherwise the existing entries are removed and
copyDirectoryRecursive repopulates the directory.  The returned flag is
`false` exactly when updateWebRoot throws. -/
def updateWebRoot (cfg : ProjectConfig) (fsOk : Bool) (src : DirContents)
    (s : FsState) : FsState × Bool :=
  if cfg.webRoot = "" then (s, true)
  else if fsOk = false then (s, false)
  else ({ s with webRoot := copyDirectoryRecursive src [] true false }, true)

/-- Code-unit-wise lexicographic comparison of character lists: the order
`Array.prototype.sort` applies to its default string comparison. -/
def charListLe : List Char → List Char → Bool
  | [], _ => true
  | _ :: _, [] => false
  | a :: as, b :: bs =>
    if a.toNat < b.toNat then true
    else if b.toNat < a.toNat then false
    else charListLe as bs

/-- Lexicographic string order used by `releases.sort()`. -/
def strLe (a b : String) : Bool := charListLe a.data b.data

/-- Insertion of a string into a sorted list under `strLe`. -/
def insertSorted (x : String) : List String → List String
  | [] => [x]
  | y :: ys => if strLe x y then x :: y :: ys else y :: insertSorted x ys

/-- `releases.sort()` (part_002 line 284): lexicographically sorted
directory listing, via insertion sort. -/
def sortNames : List String → List String
  | [] => []
  | x :: xs => insertSorted x (sortNames xs)

/-- Embeds cleanup (part_002 lines 271-293): list the release directory
names, and when more than `keep` exist, sort them and remove the
lexicographically smallest `length - keep` entries with
`rm(..., { recursive: true, force: true })`.  No other state is touched:
in particular the current pointer is never consulted. -/
def cleanupFs (keep : Nat) (s : FsState) : FsState :=
  let names := s.releases.map Prod.fst
  if keep < names.length then
    let toRemove := (sortNames names).take (names.length - keep)
    { s with releases := s.releases.filter (fun e => decide (e.1 ∉ toRemove)) }
  else s

/-- Errors a deploy run can end with, named after the thrown messages. -/
inductive DeployError where
  | assetResolution
  | extraction
  | webRootUpdate
  | cleanupFailure
  | commandFailure
deriving DecidableEq, Repr

/-- Outcome of deploy or rollback. -/
inductive DeployResult where
  | ok
  | error (e : DeployError)
deriving DecidableEq, Repr

/-- The external outcomes fixing one deploy run: success of the GitHub
release-by-tag API call, of the curl download plus extraction (with the
extracted contents), of the filesystem calls inside updateWebRoot (deploy
and rollback invocations separately), of the readdir/rm calls inside
cleanup, and of the pre-rollback hook commands. -/
structure Env where
  assetOk : Bool
  downloadOk : Bool
  extracted : DirContents
  webRootOk : Bool
  cleanupOk : Bool
  preRollbackOk : Bool
  rbWebRootOk : Bool
deriving DecidableEq, Repr

/-- The pointer-swap and serving-dir restore of rollback (part_002 lines
259-263): createSymlink repoints `current` at the previous release and
updateWebRoot mirrors its contents. -/
def rollbackSwap (cfg : ProjectConfig) (env : Env) (previous : String)
    (s : FsState) : FsState × DeployResult :=
  let s1 : FsState := { s with current := some previous }
  match updateWebRoot cfg env.rbWebRootOk (getDir s1.releases previous) s1 with
  | (s2, true) => (s2, .ok)
  | (s2, false) => (s2, .error .webRootUpdate)

/-- Embeds rollback (part_002 lines 245-269).  The pre-rollback commands
run first when configured (`if (this.config.preRollback)`; an empty command
list runs nothing and cannot fail); a failing command makes executeCommands
throw, which propagates out of rollback before the pointer is touched.
Otherwise the pointer swap and serving-dir restore run.
`if (previousReleasePath)` is the JS truthiness test on the argument
string. -/
def rollbackProc (cfg : ProjectConfig) (env : Env) (previous : String)
    (s : FsState) : FsState × DeployResult :=
  if previous = "" then (s, .ok)
  else
    match cfg.preRollback with
    | some cmds =>
      if cmds ≠ [] ∧ env.preRollbackOk = false then (s, .error .commandFailure)
      else rollbackSwap cfg env previous s
    | none => rollbackSwap cfg env previous s

/-- Embeds the catch block of deploy (part_002 lines 236-242): when a
previous release path was captured (and is truthy) rollback runs; if
rollback itself throws, that error propagates and the final
`throw error` — which would surface the original error — is never
reached. -/
def deployCatch (cfg : ProjectConfig) (env : Env) (previous : Option String)
    (e : DeployError) (s : FsState) : FsState × DeployResult :=
  match previous with
  | none => (s, .error e)
  | some p =>
    if p = "" then (s, .error e)
    else
      match rollbackProc cfg env p s with
      | (s2, .ok) => (s2, .error e)
      | (s2, .error e2) => (s2, .error e2)

/-- Embeds deploy (part_002 lines 195-243) for one run fixed by `env`.
In program order: the release directory `<tag>-<timestamp>` is created;
the asset URL is resolved (failures before the capture roll nothing back);
the release is downloaded and extracted into the directory; the previous
release path is captured via realpath; createSymlink repoints `current`;
updateWebRoot mirrors the release into the serving directory; cleanup
prunes old releases.  Any failure after the capture reaches deployCatch. -/
def deployAttempt (cfg : ProjectConfig) (env : Env) (info : ReleaseInfo)
    (timestamp : String) (s0 : FsState) : FsState × DeployResult :=
  let releaseDirName := info.tagName ++ "-" ++ timestamp
  let s1 : FsState := { s0 with releases := addDir s0.releases releaseDirName }
  if env.assetOk = false then (s1, .error .assetResolution)
  else if env.downloadOk = false then (s1, .error .extraction)
  else
    let s2 : FsState :=
      { s1 with releases := setContents s1.releases releaseDirName env.extracted }
    let previous := realpathCurrent s2
    let s3 : FsState := { s2 with current := some releaseDirName }
    match updateWebRoot cfg env.webRootOk (getDir s3.releases releaseDirName) s3 with
    | (s4, false) => deployCatch cfg env previous .webRootUpdate s4
    | (s4, true) =>
      if env.cleanupOk = false then deployCatch cfg env previous .cleanupFailure s4
      else (cleanupFs cfg.keepReleases s4, .ok)

/-- The state right after part_002 line 219: the release directory created
and populated by extraction, pointer and serving directory untouched. -/
def stagedState (env : Env) (rdn : String) (s0 : FsState) : FsState :=
  { s0 with releases := setContents (addDir s0.releases rdn) rdn env.extracted }

/-- The state right after part_002 line 229: the staged state with
`current` repointed at the new release directory. -/
def activatedState (env : Env) (rdn : String) (s0 : FsState) : FsState :=
  { stagedState env rdn s0 with current := some rdn }

/-! ### Concrete instances used by counterexamples and witnesses -/

/-- An executable stand-in for the HMAC oracle in concrete runs. -/
def hmacDemo : String → String → String := fun secret body => secret ++ ":" ++ body

/-- Retention scenario: three staged releases; the release of tag `a` was
deployed after those of tag `z`, so `current` points at `a-2025`, the
lexicographically smallest name. -/
def sRetention : FsState :=
  { releases := [("a-2025", []), ("z-2024", []), ("z-2025", [])]
    current := some "a-2025", webRoot := [] }

/-- Project of the failed-deploy scenarios: serving directory configured,
one pre-rollback hook command. -/
def cfgFail : ProjectConfig :=
  { name := "p", webRoot := "/var/www/p", githubRepo := "o/r",
    keepReleases := 5, preRollback := some ["php artisan down"] }

/-- Run outcomes: download succeeds, updateWebRoot fails (the original
deployment error), and the pre-rollback hook command exits non-zero, so the
rollback itself fails. -/
def envFailingRollback : Env :=
  { assetOk := true, downloadOk := true, extracted := [("index.html", "v2")]
    webRootOk := false, cleanupOk := true, preRollbackOk := false
    rbWebRootOk := true }

/-- Initial state of the failed-deploy scenarios: one previous release,
active and mirrored. -/
def sPrev : FsState :=
  { releases := [("r1-2024", [("index.html", "v1")])]
    current := some "r1-2024", webRoot := [("index.html", "v1")] }

/-- Release being deployed in the failed-deploy scenarios. -/
def infoFail : ReleaseInfo :=
  { tagName := "r2", zipUrl := "u", isDraft := false, isPrerelease := false
    repositoryName := "o/r", targetCommitish := "main" }

/-- Project of the successful-deploy retention scenario (no serving
directory, keep two releases). -/
def cfgKeepTwo : ProjectConfig :=
  { name := "q", webRoot := "", githubRepo := "o/q", keepReleases := 2 }

/-- Run outcomes: everything succeeds. -/
def envAllOk : Env :=
  { assetOk := true, downloadOk := true, extracted := [("f", "x")]
    webRootOk := true, cleanupOk := true, preRollbackOk := true
    rbWebRootOk := true }

/-- Two staged `z`-releases, the later one active. -/
def sTwoZ : FsState :=
  { releases := [("z-2024", []), ("z-2025", [])], current := some "z-2025"
    webRoot := [] }

/-- A release of tag `a`: its directory name sorts before every `z`
release. -/
def infoTagA : ReleaseInfo :=
  { tagName := "a", zipUrl := "u", isDraft := false, isPrerelease := false
    repositoryName := "o/q", targetCommitish := "main" }

/-- Project declaring an empty-string branch filter. -/
def projEmptyBranch : ProjectConfig :=
  { name := "eb", webRoot := "/var/www/eb", githubRepo := "owner/repo"
    keepReleases := 3, branch := some "" }

/-- Config holding only the empty-branch-filter project. -/
def cfgEmptyBranch : Config :=
  { projects := [projEmptyBranch], webhookSecret := "sec" }

/-- Project declaring the branch filter `production`. -/
def projProd : ProjectConfig :=
  { name := "pr", webRoot := "/var/www/pr", githubRepo := "owner/prod"
    keepReleases := 3, branch := some "production" }

/-- Config holding only the `production`-branch project. -/
def cfgProd : Config := { projects := [projProd], webhookSecret := "s2" }

/-- A published release event on `main` for `owner/repo`. -/
def payloadMain : WebhookPayload :=
  { action := "published", repoFullName := "owner/repo", tagName := "v1"
    zipballUrl := "u", draft := false, prerelease := false
    targetCommitish := "main" }

/-- A published release event on `main` for `owner/prod`. -/
def payloadProdRepo : WebhookPayload :=
  { action := "published", repoFullName := "owner/prod", tagName := "v1"
    zipballUrl := "u", draft := false, prerelease := false
    targetCommitish := "main" }

/-! ### Helper lemmas -/

theorem loopFind_some_iff (p : Nat → Bool) (fuel : Nat) :
    ∀ i k, loopFind p i fuel = some k ↔
      (i ≤ k ∧ k < i + fuel ∧ p k = true ∧ ∀ j, i ≤ j → j < k → p j = false) := by
  induction fuel with
  | zero =>
    intro i k
    simp only [loopFind]
    constructor
    · intro h; cases h
    · rintro ⟨h1, h2, -, -⟩; omega
  | succ fuel ih =>
    intro i k
    simp only [loopFind]
    by_cases hp : p i = true
    · rw [if_pos hp]
      constructor
      · rintro ⟨rfl⟩
        exact ⟨Nat.le_refl i, by omega, hp, fun j h1 h2 => absurd h1 (by omega)⟩
      · rintro ⟨h1, h2, h3, h4⟩
        rcases Nat.lt_or_ge i k with h | h
        · exact absurd (h4 i (Nat.le_refl i) h) (by simp [hp])
        · have : k = i := Nat.le_antisymm h h1
          rw [this]
    · rw [if_neg hp]
      rw [ih (i + 1) k]
      have hpi : p i = false := by
        cases hpv : p i
        · rfl
        · exact absurd hpv hp
      constructor
      · rintro ⟨h1, h2, h3, h4⟩
        refine ⟨by omega, by omega, h3, fun j hj1 hj2 => ?_⟩
        rcases Nat.lt_or_ge j (i + 1) with h | h
        · have : j = i := by omega
          rw [this]; exact hpi
        · exact h4 j h hj2
      · rintro ⟨h1, h2, h3, h4⟩
        have hik : i ≠ k := by
          intro hik
          rw [← hik] at h3
          rw [hpi] at h3
          cases h3
        exact ⟨by omega, by omega, h3, fun j hj1 hj2 => h4 j (by omega) hj2⟩

theorem loopFind_none_iff (p : Nat → Bool) (fuel : Nat) :
    ∀ i, loopFind p i fuel = none ↔ ∀ j, i ≤ j → j < i + fuel → p j = false := by
  induction fuel with
  | zero =>
    intro i
    simp only [loopFind]
    constructor
    · intro _ j h1 h2; omega
    · intro _; trivial
  | succ fuel ih =>
    intro i
    simp only [loopFind]
    by_cases hp : p i = true
    · rw [if_pos hp]
      constructor
      · intro h; cases h
      · intro h
        have := h i (Nat.le_refl i) (by omega)
        rw [hp] at this
        cases this
    · rw [if_neg hp]
      rw [ih (i + 1)]
      have hpi : p i = false := by
        cases hpv : p i
        · rfl
        · exact absurd hpv hp
      constructor
      · intro h j hj1 hj2
        rcases Nat.lt_or_ge j (i + 1) with hc | hc
        · have : j = i := by omega
          rw [this]; exact hpi
        · exact h j hc (by omega)
      · intro h j hj1 hj2
        exact h j (by omega) (by omega)

theorem loopFindDown_some_iff (p : Nat → Bool) (n : Nat) :
    ∀ k, loopFindDown p n = some k ↔
      (k ≤ n ∧ p k = true ∧ ∀ j, k < j → j ≤ n → p j = false) := by
  induction n with
  | zero =>
    intro k
    simp only [loopFindDown]
    by_cases hp : p 0 = true
    · rw [if_pos hp]
      constructor
      · rintro ⟨rfl⟩
        exact ⟨Nat.le_refl 0, hp, fun j h1 h2 => by omega⟩
      · rintro ⟨h1, h2, -⟩
        have : k = 0 := Nat.le_antisymm h1 (Nat.zero_le k)
        rw [this]
    · rw [if_neg hp]
      constructor
      · intro h; cases h
      · rintro ⟨h1, h2, -⟩
        have : k = 0 := Nat.le_antisymm h1 (Nat.zero_le k)
        rw [this] at h2
        exact absurd h2 hp
  | succ n ih =>
    intro k
    simp only [loopFindDown]
    by_cases hp : p (n + 1) = true
    · rw [if_pos hp]
      constructor
      · rintro ⟨rfl⟩
        exact ⟨Nat.le_refl _, hp, fun j h1 h2 => by omega⟩
      · rintro ⟨h1, h2, h4⟩
        rcases Nat.lt_or_ge k (n + 1) with h | h
        · exact absurd (h4 (n + 1) h (Nat.le_refl _)) (by simp [hp])
        · have : k = n + 1 := Nat.le_antisymm h1 h
          rw [this]
    · rw [if_neg hp]
      rw [ih k]
      have hpn : p (n + 1) = false := by
        cases hpv : p (n + 1)
        · rfl
        · exact absurd hpv hp
      constructor
      · rintro ⟨h1, h2, h4⟩
        refine ⟨by omega, h2, fun j hj1 hj2 => ?_⟩
        rcases Nat.lt_or_ge j (n + 1) with hc | hc
        · exact h4 j hj1 (by omega)
        · have : j = n + 1 := by omega
          rw [this]; exact hpn
      · rintro ⟨h1, h2, h4⟩
        have hk : k ≠ n + 1 := by
          intro hk
          rw [← hk] at hpn
          rw [hpn] at h2
          cases h2
        exact ⟨by omega, h2, fun j hj1 hj2 => h4 j hj1 (by omega)⟩

theorem loopFindDown_none_iff (p : Nat → Bool) (n : Nat) :
    loopFindDown p n = none ↔ ∀ j, j ≤ n → p j = false := by
  induction n with
  | zero =>
    simp only [loopFindDown]
    by_cases hp : p 0 = true
    · rw [if_pos hp]
      constructor
      · intro h; cases h
      · intro h
        have := h 0 (Nat.le_refl 0)
        rw [hp] at this
        cases this
    · rw [if_neg hp]
      have hp0 : p 0 = false := by
        cases hpv : p 0
        · rfl
        · exact absurd hpv hp
      constructor
      · intro _ j hj
        have : j = 0 := Nat.le_antisymm hj (Nat.zero_le j)
        rw [this]; exact hp0
      · intro _; rfl
  | succ n ih =>
    simp only [loopFindDown]
    by_cases hp : p (n + 1) = true
    · rw [if_pos hp]
      constructor
      · intro h; cases h
      · intro h
        have := h (n + 1) (Nat.le_refl _)
        rw [hp] at this
        cases this
    · rw [if_neg hp]
      rw [ih]
      have hpn : p (n + 1) = false := by
        cases hpv : p (n + 1)
        · rfl
        · exact absurd hpv hp
      constructor
      · intro h j hj
        rcases Nat.lt_or_ge j (n + 1) with hc | hc
        · exact h j (by omega)
        · have : j = n + 1 := by omega
          rw [this]; exact hpn
      · intro h j hj
        exact h j (by omega)

theorem insertSorted_perm (x : String) (l : List String) :
    List.Perm (insertSorted x l) (x :: l) := by
  induction l with
  | nil => exact List.Perm.refl _
  | cons y ys ih =>
    by_cases h : strLe x y = true
    · rw [insertSorted, if_pos h]
    · rw [insertSorted, if_neg h]
      exact (List.Perm.cons y ih).trans (List.Perm.swap x y ys)

theorem sortNames_perm (l : List String) : List.Perm (sortNames l) l := by
  induction l with
  | nil => exact List.Perm.refl _
  | cons x xs ih =>
    rw [sortNames]
    exact (insertSorted_perm x (sortNames xs)).trans (List.Perm.cons x ih)

theorem getEntry_eq_none_of_not_mem {α : Type} (l : List (String × α)) (n : String)
    (h : n ∉ l.map Prod.fst) : getEntry l n = none := by
  induction l with
  | nil => rfl
  | cons e rest ih =>
    rw [getEntry]
    rw [List.map_cons, List.mem_cons] at h
    push_neg at h
    rw [if_neg (fun he => h.1 he.symm)]
    exact ih h.2

theorem getEntry_append_single_ne {α : Type} (l : List (String × α)) (n m : String)
    (v : α) (h : m ≠ n) : getEntry (l ++ [(n, v)]) m = getEntry l m := by
  induction l with
  | nil =>
    show getEntry [(n, v)] m = none
    rw [getEntry, if_neg (fun he : n = m => h he.symm)]
    rfl
  | cons e rest ih =>
    rw [List.cons_append, getEntry, getEntry]
    by_cases he : e.1 = m
    · rw [if_pos he, if_pos he]
    · rw [if_neg he, if_neg he]
      exact ih

theorem getEntry_setContents_ne (rs : List (String × DirContents)) (n m : String)
    (c : DirContents) (h : m ≠ n) :
    getEntry (setContents rs n c) m = getEntry rs m := by
  induction rs with
  | nil => rfl
  | cons e rest ih =>
    rw [setContents]
    by_cases he : e.1 = n
    · rw [if_pos he, getEntry, getEntry]
      have hem : ¬ e.1 = m := fun hc => h (hc.symm.trans he)
      rw [if_neg (show ¬ ((e.1, c) : String × DirContents).1 = m from hem),
        if_neg hem]
      exact ih
    · rw [if_neg he, getEntry, getEntry]
      by_cases hem : e.1 = m
      · rw [if_pos hem, if_pos hem]
      · rw [if_neg hem, if_neg hem]
        exact ih

theorem setContents_map_fst (rs : List (String × DirContents)) (n : String)
    (c : DirContents) : (setContents rs n c).map Prod.fst = rs.map Prod.fst := by
  induction rs with
  | nil => rfl
  | cons e rest ih =>
    rw [setContents, List.map_cons, List.map_cons, ih]
    by_cases he : e.1 = n
    · rw [if_pos he]
    · rw [if_neg he]

theorem setContents_length (rs : List (String × DirContents)) (n : String)
    (c : DirContents) : (setContents rs n c).length = rs.length := by
  induction rs with
  | nil => rfl
  | cons e rest ih =>
    rw [setContents, List.length_cons, List.length_cons, ih]

theorem addDir_map_fst_of_not_mem (rs : List (String × DirContents)) (n : String)
    (h : n ∉ rs.map Prod.fst) :
    (addDir rs n).map Prod.fst = rs.map Prod.fst ++ [n] := by
  rw [addDir, if_neg h, List.map_append]
  rfl

theorem length_filter_map_fst {α : Type} (rs : List (String × α)) (q : String → Bool) :
    (rs.filter (fun e => q e.1)).length = ((rs.map Prod.fst).filter q).length := by
  induction rs with
  | nil => rfl
  | cons e rest ih =>
    rw [List.map_cons, List.filter_cons, List.filter_cons]
    by_cases h : q e.1 = true
    · rw [if_pos h, if_pos h, List.length_cons, List.length_cons, ih]
    · rw [if_neg h, if_neg h, ih]

theorem cleanupFs_current (keep : Nat) (s : FsState) :
    (cleanupFs keep s).current = s.current := by
  rw [cleanupFs]
  split
  · rfl
  · rfl

theorem cleanupFs_webRoot (keep : Nat) (s : FsState) :
    (cleanupFs keep s).webRoot = s.webRoot := by
  rw [cleanupFs]
  split
  · rfl
  · rfl

theorem cleanupFs_length (keep : Nat) (s : FsState)
    (hnd : (s.releases.map Prod.fst).Nodup) :
    (cleanupFs keep s).releases.length =
      if keep < s.releases.length then keep else s.releases.length := by
  have hlen : (s.releases.map Prod.fst).length = s.releases.length :=
    List.length_map _ _
  rw [cleanupFs]
  by_cases hk : keep < (s.releases.map Prod.fst).length
  · rw [if_pos hk, if_pos (hlen ▸ hk)]
    set names := s.releases.map Prod.fst with hnames
    set m := names.length - keep with hm
    set toRemove := (sortNames names).take m with htr
    have hq : (s.releases.filter (fun e => decide (e.1 ∉ toRemove))).length
        = (names.filter (fun x => decide (x ∉ toRemove))).length :=
      length_filter_map_fst s.releases (fun x => decide (x ∉ toRemove))
    rw [hq]
    have hperm : List.Perm (sortNames names) names := sortNames_perm names
    have hfperm : List.Perm ((sortNames names).filter (fun x => decide (x ∉ toRemove)))
        (names.filter (fun x => decide (x ∉ toRemove))) :=
      hperm.filter _
    rw [← hfperm.length_eq]
    have hsplit : (sortNames names).take m ++ (sortNames names).drop m = sortNames names :=
      List.take_append_drop m (sortNames names)
    have hsnd : (sortNames names).Nodup := (hperm.nodup_iff).mpr hnd
    have hnd2 : ((sortNames names).take m ++ (sortNames names).drop m).Nodup := by
      rw [hsplit]; exact hsnd
    have hdisj := (List.nodup_append.mp hnd2).2.2
    conv_lhs => rw [← hsplit]
    rw [List.filter_append]
    have h1 : ((sortNames names).take m).filter (fun x => decide (x ∉ toRemove)) = [] := by
      rw [List.filter_eq_nil_iff]
      intro a ha
      simp only [decide_eq_true_eq, Decidable.not_not]
      rw [htr]
      exact ha
    have h2 : ((sortNames names).drop m).filter (fun x => decide (x ∉ toRemove))
        = (sortNames names).drop m := by
      rw [List.filter_eq_self]
      intro a ha
      simp only [decide_eq_true_eq]
      intro hmem
      exact hdisj (htr ▸ hmem) ha
    rw [h1, h2, List.nil_append, List.length_drop, hperm.length_eq]
    rw [hnames] at hm ⊢
    rw [hlen]
    omega
  · rw [if_neg hk, if_neg (hlen ▸ hk)]

theorem realpathCurrent_eq_some_iff (s : FsState) (p : String) :
    realpathCurrent s = some p ↔
      s.current = some p ∧ p ∈ s.releases.map Prod.fst := by
  cases hc : s.current with
  | none => simp [realpathCurrent, hc]
  | some t =>
    simp only [realpathCurrent, hc]
    by_cases h : t ∈ s.releases.map Prod.fst
    · rw [if_pos h]
      constructor
      · intro h1
        rw [Option.some_inj] at h1
        subst h1
        exact ⟨rfl, h⟩
      · rintro ⟨h1, -⟩
        rw [Option.some_inj] at h1
        rw [h1]
    · rw [if_neg h]
      constructor
      · intro hc2; cases hc2
      · rintro ⟨h1, h2⟩
        rw [Option.some_inj] at h1
        exact absurd (h1 ▸ h2) h

theorem copyDirectoryRecursive_clear (src : DirContents)
    (h : (src.map Prod.fst).Nodup) :
    copyDirectoryRecursive src [] true false = src := by
  have aux : ∀ (l acc : DirContents), ((acc ++ l).map Prod.fst).Nodup →
      l.foldl (fun d e => if (getEntry d e.1).isSome && !false then d else d ++ [e]) acc
        = acc ++ l := by
    intro l
    induction l with
    | nil => intro acc _; rw [List.foldl_nil, List.append_nil]
    | cons e rest ih =>
      intro acc hnd
      have hmem : e.1 ∉ acc.map Prod.fst := by
        rw [List.map_append] at hnd
        have hdisj := (List.nodup_append.mp hnd).2.2
        intro hc
        exact hdisj hc (by rw [List.map_cons]; exact List.mem_cons_self _ _)
      have hnone : getEntry acc e.1 = none := getEntry_eq_none_of_not_mem acc e.1 hmem
      rw [List.foldl_cons]
      have hcond : ((getEntry acc e.1).isSome && !false) = false := by
        rw [hnone]; rfl
      rw [if_neg (by rw [hcond]; exact fun hc => nomatch hc)]
      have hre : (acc ++ [e]) ++ rest = acc ++ e :: rest := by
        rw [List.append_assoc]; rfl
      rw [ih (acc ++ [e]) (by rw [hre]; exact hnd)]
      rw [hre]
  rw [copyDirectoryRecursive]
  have := aux src [] (by rw [List.nil_append]; exact h)
  simp only [List.nil_append] at this
  exact this

theorem stagedState_releases_map_fst (env : Env) (rdn : String) (s0 : FsState)
    (hfresh : rdn ∉ s0.releases.map Prod.fst) :
    (stagedState env rdn s0).releases.map Prod.fst
      = s0.releases.map Prod.fst ++ [rdn] := by
  show (setContents (addDir s0.releases rdn) rdn env.extracted).map Prod.fst = _
  rw [setContents_map_fst, addDir_map_fst_of_not_mem _ _ hfresh]

theorem stagedState_getDir_ne (env : Env) (rdn : String) (s0 : FsState) (p : String)
    (hfresh : rdn ∉ s0.releases.map Prod.fst) (hne : p ≠ rdn) :
    getDir (stagedState env rdn s0).releases p = getDir s0.releases p := by
  show getDir (setContents (addDir s0.releases rdn) rdn env.extracted) p = _
  rw [getDir, getDir, getEntry_setContents_ne _ _ _ _ hne, addDir, if_neg hfresh,
    getEntry_append_single_ne _ _ _ _ hne]

theorem realpathCurrent_stagedState (env : Env) (rdn : String) (s0 : FsState)
    (p : String) (hfresh : rdn ∉ s0.releases.map Prod.fst)
    (hprev : realpathCurrent s0 = some p) :
    realpathCurrent (stagedState env rdn s0) = some p := by
  obtain ⟨hcur, hmem⟩ := (realpathCurrent_eq_some_iff s0 p).mp hprev
  rw [realpathCurrent_eq_some_iff]
  constructor
  · exact hcur
  · rw [stagedState_releases_map_fst env rdn s0 hfresh]
    exact List.mem_append_left _ hmem

theorem deployAttempt_eq (cfg : ProjectConfig) (env : Env) (info : ReleaseInfo)
    (ts : String) (s0 : FsState)
    (ha : env.assetOk = true) (hd : env.downloadOk = true) :
    deployAttempt cfg env info ts s0 =
      match updateWebRoot cfg env.webRootOk
          (getDir (stagedState env (info.tagName ++ "-" ++ ts) s0).releases
            (info.tagName ++ "-" ++ ts))
          (activatedState env (info.tagName ++ "-" ++ ts) s0) with
      | (s4, false) =>
        deployCatch cfg env
          (realpathCurrent (stagedState env (info.tagName ++ "-" ++ ts) s0))
          .webRootUpdate s4
      | (s4, true) =>
        if env.cleanupOk = false then
          deployCatch cfg env
            (realpathCurrent (stagedState env (info.tagName ++ "-" ++ ts) s0))
            .cleanupFailure s4
        else (cleanupFs cfg.keepReleases s4, .ok) := by
  rw [deployAttempt, ha, hd]
  rw [if_neg (fun hc : (true : Bool) = false => nomatch hc)]
  rw [if_neg (fun hc : (true : Bool) = false => nomatch hc)]
  rfl

theorem rollbackProc_eq_swap (cfg : ProjectConfig) (env : Env) (previous : String)
    (s : FsState) (hpne : previous ≠ "")
    (hpr : env.preRollbackOk = true ∨ cfg.preRollback = none ∨
      cfg.preRollback = some []) :
    rollbackProc cfg env previous s = rollbackSwap cfg env previous s := by
  rw [rollbackProc, if_neg hpne]
  cases hc : cfg.preRollback with
  | none => rfl
  | some cmds =>
    show (if cmds ≠ [] ∧ env.preRollbackOk = false then
        (s, DeployResult.error DeployError.commandFailure)
      else rollbackSwap cfg env previous s) = rollbackSwap cfg env previous s
    rcases hpr with h | h | h
    · rw [if_neg]
      rintro ⟨-, h2⟩
      rw [h] at h2
      cases h2
    · rw [hc] at h; cases h
    · rw [hc] at h
      injection h with h
      subst h
      rw [if_neg]
      rintro ⟨h1, -⟩
      exact h1 rfl

theorem rollbackSwap_result (cfg : ProjectConfig) (env : Env) (previous : String)
    (s : FsState) (hweb : cfg.webRoot ≠ "") (hrb : env.rbWebRootOk = true) :
    rollbackSwap cfg env previous s =
      ({ s with
          current := some previous
          webRoot := copyDirectoryRecursive (getDir s.releases previous) [] true false },
        DeployResult.ok) := by
  rw [rollbackSwap, hrb, updateWebRoot, if_neg hweb]
  rw [if_neg (fun hc : (true : Bool) = false => nomatch hc)]

theorem deployCatch_some (cfg : ProjectConfig) (env : Env) (p : String)
    (e : DeployError) (s : FsState) (hpne : p ≠ "") :
    deployCatch cfg env (some p) e s =
      match rollbackProc cfg env p s with
      | (s2, DeployResult.ok) => (s2, DeployResult.error e)
      | (s2, DeployResult.error e2) => (s2, DeployResult.error e2) := by
  rw [deployCatch]
  show (if p = "" then (s, DeployResult.error e)
    else
      match rollbackProc cfg env p s with
      | (s2, DeployResult.ok) => (s2, DeployResult.error e)
      | (s2, DeployResult.error e2) => (s2, DeployResult.error e2)) = _
  rw [if_neg hpne]

theorem sha256_prefixed_ne_empty (x : String) : "sha256=" ++ x ≠ "" := by
  intro h
  have hlen := congrArg String.length h
  rw [String.length_append] at hlen
  have h7 : ("sha256=" : String).length = 7 := rfl
  have h0 : ("" : String).length = 0 := rfl
  omega

theorem handleRelease_status_ne_401_of_verified (hm : String → String → String)
    (cfg : Config) (body : String) (payload : WebhookPayload)
    (sig ev : Option String) (dOk : Bool)
    (h : verifySignature hm cfg.webhookSecret sig body = true) :
    (handleRelease hm cfg body payload sig ev dOk).status ≠ 401 := by
  rw [handleRelease, h]
  rw [if_neg (fun hc : (true : Bool) = false => nomatch hc)]
  repeat' split
  all_goals dsimp only
  all_goals decide

/-! ### Claim theorems -/

/-- C1: the claim states that cleanup never deletes the release directory
referenced by the current pointer.  The cleanup code (part_002 lines
271-293, identical in src/src/release-manager.ts lines 187-209) never
consults the pointer: with releases `a-2025, z-2024, z-2025`, keep-count 2
and the pointer on `a-2025` (the lexicographically smallest name, as
happens when the most recently deployed tag sorts below older tags),
cleanup deletes the pointer's target. -/
theorem cleanup_deletes_current_target :
    realpathCurrent sRetention = some "a-2025"
    ∧ "a-2025" ∉ (cleanupFs 2 sRetention).releases.map Prod.fst := by
  decide

/-- C2 counterexample: a deployment that fails after the previous release
path was captured, in which the pre-rollback hook also fails: the run ends
in error but the current pointer is left on the new (never served) release,
not restored to the previous one. -/
theorem deploy_failed_rollback_pointer_not_restored :
    realpathCurrent sPrev = some "r1-2024"
    ∧ (deployAttempt cfgFail envFailingRollback infoFail "t1" sPrev).2
        ≠ DeployResult.ok
    ∧ realpathCurrent (deployAttempt cfgFail envFailingRollback infoFail "t1" sPrev).1
        ≠ some "r1-2024" := by
  decide

/-- C2 (amended): for every deployment attempt that fails after a previous
release existed, provided the rollback procedure itself succeeds (the
pre-rollback hooks do not fail and the rollback filesystem calls succeed),
the current pointer resolves to the release it resolved to before the
attempt and the serving directory's contents equal that release's
contents. -/
theorem deploy_failure_restores_previous_when_rollback_succeeds
    (cfg : ProjectConfig) (env : Env) (info : ReleaseInfo) (ts : String)
    (s0 : FsState) (p : String)
    (hfresh : info.tagName ++ "-" ++ ts ∉ s0.releases.map Prod.fst)
    (hprev : realpathCurrent s0 = some p)
    (hpne : p ≠ "")
    (hasset : env.assetOk = true) (hdl : env.downloadOk = true)
    (hfail : env.webRootOk = false ∨ env.cleanupOk = false)
    (hweb : cfg.webRoot ≠ "")
    (hpr : env.preRollbackOk = true ∨ cfg.preRollback = none ∨
      cfg.preRollback = some [])
    (hrb : env.rbWebRootOk = true)
    (hnodupP : ((getDir s0.releases p).map Prod.fst).Nodup) :
    (deployAttempt cfg env info ts s0).2 ≠ DeployResult.ok
    ∧ realpathCurrent (deployAttempt cfg env info ts s0).1 = some p
    ∧ (deployAttempt cfg env info ts s0).1.webRoot = getDir s0.releases p := by
  have hmem : p ∈ s0.releases.map Prod.fst :=
    ((realpathCurrent_eq_some_iff s0 p).mp hprev).2
  have hpne2 : p ≠ info.tagName ++ "-" ++ ts := fun hc => hfresh (hc ▸ hmem)
  have hrp := realpathCurrent_stagedState env (info.tagName ++ "-" ++ ts) s0 p
    hfresh hprev
  have hcatch : ∀ (s4 : FsState) (e : DeployError),
      s4.releases = (stagedState env (info.tagName ++ "-" ++ ts) s0).releases →
      (deployCatch cfg env (some p) e s4).2 ≠ DeployResult.ok
      ∧ realpathCurrent (deployCatch cfg env (some p) e s4).1 = some p
      ∧ (deployCatch cfg env (some p) e s4).1.webRoot = getDir s0.releases p := by
    intro s4 e hrel
    rw [deployCatch_some cfg env p e s4 hpne,
      rollbackProc_eq_swap cfg env p s4 hpne hpr,
      rollbackSwap_result cfg env p s4 hweb hrb]
    refine ⟨?_, ?_, ?_⟩
    · intro hcontra; cases hcontra
    · rw [realpathCurrent_eq_some_iff]
      refine ⟨rfl, ?_⟩
      show p ∈ s4.releases.map Prod.fst
      rw [hrel, stagedState_releases_map_fst env _ s0 hfresh]
      exact List.mem_append_left _ hmem
    · show copyDirectoryRecursive (getDir s4.releases p) [] true false
        = getDir s0.releases p
      rw [hrel, stagedState_getDir_ne env _ s0 p hfresh hpne2,
        copyDirectoryRecursive_clear _ hnodupP]
  cases hwOk : env.webRootOk with
  | false =>
    have hup : updateWebRoot cfg false
        (getDir (stagedState env (info.tagName ++ "-" ++ ts) s0).releases
          (info.tagName ++ "-" ++ ts))
        (activatedState env (info.tagName ++ "-" ++ ts) s0)
        = (activatedState env (info.tagName ++ "-" ++ ts) s0, false) := by
      rw [updateWebRoot, if_neg hweb]
      rfl
    rw [deployAttempt_eq cfg env info ts s0 hasset hdl, hwOk, hrp, hup]
    exact hcatch (activatedState env (info.tagName ++ "-" ++ ts) s0)
      DeployError.webRootUpdate rfl
  | true =>
    rcases hfail with hf | hf
    · rw [hwOk] at hf; cases hf
    · have hup : updateWebRoot cfg true
          (getDir (stagedState env (info.tagName ++ "-" ++ ts) s0).releases
            (info.tagName ++ "-" ++ ts))
          (activatedState env (info.tagName ++ "-" ++ ts) s0)
          = ({ activatedState env (info.tagName ++ "-" ++ ts) s0 with
                webRoot := copyDirectoryRecursive
                  (getDir (stagedState env (info.tagName ++ "-" ++ ts) s0).releases
                    (info.tagName ++ "-" ++ ts)) [] true false }, true) := by
        rw [updateWebRoot, if_neg hweb]
        rw [if_neg (fun hcontra : (true : Bool) = false => nomatch hcontra)]
      rw [deployAttempt_eq cfg env info ts s0 hasset hdl, hwOk, hrp, hup, hf]
      exact hcatch
        ({ activatedState env (info.tagName ++ "-" ++ ts) s0 with
            webRoot := copyDirectoryRecursive
              (getDir (stagedState env (info.tagName ++ "-" ++ ts) s0).releases
                (info.tagName ++ "-" ++ ts)) [] true false })
        DeployError.cleanupFailure rfl

/-- C2 witness: the amended theorem applied to a concrete failed deployment
whose rollback succeeds: the pointer and serving directory are restored. -/
theorem deploy_failure_restores_previous_witness :
    (deployAttempt cfgFail { envFailingRollback with preRollbackOk := true }
        infoFail "t2" sPrev).2 ≠ DeployResult.ok
    ∧ realpathCurrent (deployAttempt cfgFail
        { envFailingRollback with preRollbackOk := true } infoFail "t2" sPrev).1
        = some "r1-2024"
    ∧ (deployAttempt cfgFail { envFailingRollback with preRollbackOk := true }
        infoFail "t2" sPrev).1.webRoot = getDir sPrev.releases "r1-2024" :=
  deploy_failure_restores_previous_when_rollback_succeeds cfgFail
    { envFailingRollback with preRollbackOk := true } infoFail "t2" sPrev "r1-2024"
    (by decide) (by decide) (by decide) rfl rfl (Or.inl rfl) (by decide)
    (Or.inl rfl) rfl (by decide)

/-- C3: the claim states the pointer swap is one atomic replace with no
intermediate missing-pointer state.  createSymlink (src/src/utils.ts lines
47-62; same shape in src/src/release-manager.ts lines 10-24) issues `rm`
and then `ln -sfn`: swapping an existing pointer from `v1` to `v2` passes
through a reachable intermediate state in which the pointer does not
exist. -/
theorem symlink_swap_missing_pointer_window :
    statesDuring (some "releases/app/v1") (createSymlinkOps "releases/app/v2")
      = [some "releases/app/v1", none, some "releases/app/v2"]
    ∧ none ∈ statesDuring (some "releases/app/v1") (createSymlinkOps "releases/app/v2") := by
  decide

/-- C5: the claim states that when the rollback of a failed deployment
itself fails, the original deployment error is still the one surfaced.
The catch block of deploy (part_002 lines 236-242) awaits rollback before
its final `throw error`, so a rollback exception propagates instead: in a
run whose original error is the web-root update failure and whose
pre-rollback hook fails, deploy surfaces the hook's command error; the same
run with a succeeding hook surfaces the original web-root error. -/
theorem rollback_error_masks_original_error :
    (deployAttempt cfgFail envFailingRollback infoFail "t3" sPrev).2
      = DeployResult.error DeployError.commandFailure
    ∧ (deployAttempt cfgFail { envFailingRollback with preRollbackOk := true }
        infoFail "t3" sPrev).2 = DeployResult.error DeployError.webRootUpdate := by
  decide

/-- C6 counterexample: a fully successful deployment after which the
current pointer does not resolve to the newly staged release directory:
the new directory `a-26` sorts below the two older `z` releases, so cleanup
(which never consults the pointer) deletes it and the pointer dangles. -/
theorem successful_deploy_retention_dangling_pointer :
    (deployAttempt cfgKeepTwo envAllOk infoTagA "26" sTwoZ).2 = DeployResult.ok
    ∧ (deployAttempt cfgKeepTwo envAllOk infoTagA "26" sTwoZ).1.current
        = some "a-26"
    ∧ realpathCurrent (deployAttempt cfgKeepTwo envAllOk infoTagA "26" sTwoZ).1
        = none := by
  decide

/-- C6 (amended): for every successful deployment the current pointer
targets the newly staged release directory, and after retention the number
of release directories is at least 1 and at most keepReleases (keep-count
at least 1) — but the targeted directory itself may have been deleted by
retention when its name sorts below the keep window, leaving the pointer
dangling (see C1). -/
theorem deploy_success_pointer_and_retention_bounds
    (cfg : ProjectConfig) (env : Env) (info : ReleaseInfo) (ts : String)
    (s0 : FsState)
    (hkeep : 1 ≤ cfg.keepReleases)
    (hnd : (s0.releases.map Prod.fst).Nodup)
    (hfresh : info.tagName ++ "-" ++ ts ∉ s0.releases.map Prod.fst)
    (ha : env.assetOk = true) (hd : env.downloadOk = true)
    (hw : cfg.webRoot = "" ∨ env.webRootOk = true) (hcl : env.cleanupOk = true) :
    (deployAttempt cfg env info ts s0).2 = DeployResult.ok
    ∧ (deployAttempt cfg env info ts s0).1.current
        = some (info.tagName ++ "-" ++ ts)
    ∧ 1 ≤ (deployAttempt cfg env info ts s0).1.releases.length
    ∧ (deployAttempt cfg env info ts s0).1.releases.length ≤ cfg.keepReleases := by
  have hstage_nd : ((stagedState env (info.tagName ++ "-" ++ ts) s0).releases.map
      Prod.fst).Nodup := by
    rw [stagedState_releases_map_fst env _ s0 hfresh]
    rw [List.nodup_append]
    refine ⟨hnd, List.nodup_singleton _, ?_⟩
    intro a ha1 ha2
    rw [List.mem_singleton] at ha2
    exact hfresh (ha2 ▸ ha1)
  have hstage_len : (stagedState env (info.tagName ++ "-" ++ ts) s0).releases.length
      = s0.releases.length + 1 := by
    have h1 := congrArg List.length
      (stagedState_releases_map_fst env (info.tagName ++ "-" ++ ts) s0 hfresh)
    rw [List.length_map, List.length_append, List.length_map] at h1
    simpa using h1
  have hgen : ∀ s4 : FsState,
      s4.releases = (stagedState env (info.tagName ++ "-" ++ ts) s0).releases →
      s4.current = some (info.tagName ++ "-" ++ ts) →
      (cleanupFs cfg.keepReleases s4).current = some (info.tagName ++ "-" ++ ts)
      ∧ 1 ≤ (cleanupFs cfg.keepReleases s4).releases.length
      ∧ (cleanupFs cfg.keepReleases s4).releases.length ≤ cfg.keepReleases := by
    intro s4 hrel hcur
    have hnd4 : (s4.releases.map Prod.fst).Nodup := by rw [hrel]; exact hstage_nd
    have hlen := cleanupFs_length cfg.keepReleases s4 hnd4
    refine ⟨?_, ?_, ?_⟩
    · rw [cleanupFs_current]; exact hcur
    · rw [hlen]
      by_cases hkn : cfg.keepReleases < s4.releases.length
      · rw [if_pos hkn]; exact hkeep
      · rw [if_neg hkn]
        rw [hrel, hstage_len]
        omega
    · rw [hlen]
      by_cases hkn : cfg.keepReleases < s4.releases.length
      · rw [if_pos hkn]
      · rw [if_neg hkn]; omega
  by_cases hwe : cfg.webRoot = ""
  · have hup : updateWebRoot cfg env.webRootOk
        (getDir (stagedState env (info.tagName ++ "-" ++ ts) s0).releases
          (info.tagName ++ "-" ++ ts))
        (activatedState env (info.tagName ++ "-" ++ ts) s0)
        = (activatedState env (info.tagName ++ "-" ++ ts) s0, true) := by
      rw [updateWebRoot, if_pos hwe]
    rw [deployAttempt_eq cfg env info ts s0 ha hd, hup, hcl]
    obtain ⟨h1, h2, h3⟩ := hgen (activatedState env (info.tagName ++ "-" ++ ts) s0)
      rfl rfl
    exact ⟨rfl, h1, h2, h3⟩
  · have hwr : env.webRootOk = true := by
      rcases hw with hw | hw
      · exact absurd hw hwe
      · exact hw
    have hup : updateWebRoot cfg env.webRootOk
        (getDir (stagedState env (info.tagName ++ "-" ++ ts) s0).releases
          (info.tagName ++ "-" ++ ts))
        (activatedState env (info.tagName ++ "-" ++ ts) s0)
        = ({ activatedState env (info.tagName ++ "-" ++ ts) s0 with
              webRoot := copyDirectoryRecursive
                (getDir (stagedState env (info.tagName ++ "-" ++ ts) s0).releases
                  (info.tagName ++ "-" ++ ts)) [] true false }, true) := by
      rw [hwr, updateWebRoot, if_neg hwe]
      rw [if_neg (fun hcontra : (true : Bool) = false => nomatch hcontra)]
    rw [deployAttempt_eq cfg env info ts s0 ha hd, hup, hcl]
    obtain ⟨h1, h2, h3⟩ := hgen
      ({ activatedState env (info.tagName ++ "-" ++ ts) s0 with
          webRoot := copyDirectoryRecursive
            (getDir (stagedState env (info.tagName ++ "-" ++ ts) s0).releases
              (info.tagName ++ "-" ++ ts)) [] true false })
      rfl rfl
    exact ⟨rfl, h1, h2, h3⟩

/-- C6 witness: the amended theorem applied to a concrete successful
deployment (two old releases, keep-count 2). -/
theorem deploy_success_pointer_and_retention_bounds_witness :
    (deployAttempt cfgKeepTwo envAllOk infoTagA "2026" sTwoZ).2 = DeployResult.ok
    ∧ (deployAttempt cfgKeepTwo envAllOk infoTagA "2026" sTwoZ).1.current
        = some (infoTagA.tagName ++ "-" ++ "2026")
    ∧ 1 ≤ (deployAttempt cfgKeepTwo envAllOk infoTagA "2026" sTwoZ).1.releases.length
    ∧ (deployAttempt cfgKeepTwo envAllOk infoTagA "2026" sTwoZ).1.releases.length
        ≤ cfgKeepTwo.keepReleases :=
  deploy_success_pointer_and_retention_bounds cfgKeepTwo envAllOk infoTagA "2026"
    sTwoZ (by decide) (by decide) (by decide) rfl rfl (Or.inl rfl) rfl

/-- C7 counterexample: the claim states the start offset is the position of
the first occurrence of the four-byte ZIP magic.  The scan of part_002
line 112 runs `i < bytes.length - 4`, so an occurrence beginning at
`length - 4` is never examined: on the buffer that is exactly the magic,
the magic occurs at offset 0 yet the extractor reports it not found. -/
theorem zip_magic_at_buffer_tail_not_found :
    magicAt [0x50, 0x4b, 0x03, 0x04] 0 = true
    ∧ findZipStart [0x50, 0x4b, 0x03, 0x04] = none
    ∧ (downloadAndExtractFs [0x50, 0x4b, 0x03, 0x04] true [("a.txt", [65])]).2
        = ExtractResult.error ExtractError.zipHeaderNotFound := by
  decide

/-- C7 (amended): the extractor computes the start offset as the first
occurrence of the four-byte ZIP magic among offsets strictly below
`length - 4` (an occurrence inside the final four bytes is not found),
computes the end offset from the last double-dash pair (falling back to the
buffer length when none exists), operates only on the resulting slice, and
fails when no such magic occurrence exists or the slice is empty. -/
theorem extractor_offset_characterization (bytes : List Nat) :
    (∀ s, findZipStart bytes = some s ↔
        (s < bytes.length - 4 ∧ magicAt bytes s = true ∧
          ∀ j, j < s → magicAt bytes j = false))
    ∧ (findZipStart bytes = none ↔
        ∀ j, j < bytes.length - 4 → magicAt bytes j = false)
    ∧ ((∀ i, dashPairAt bytes i = false) → findBoundaryEnd bytes = bytes.length)
    ∧ (∀ i, dashPairAt bytes i = true →
        (∀ j, i < j → dashPairAt bytes j = false) → findBoundaryEnd bytes = i - 1)
    ∧ (findZipStart bytes = none → ∀ uOk xs,
        downloadAndExtractFs bytes uOk xs
          = ([("release.zip", bytes)], ExtractResult.error ExtractError.zipHeaderNotFound))
    ∧ (∀ s, findZipStart bytes = some s → (cleanedSlice bytes s).length = 0 →
        ∀ uOk xs, downloadAndExtractFs bytes uOk xs
          = ([("release.zip", cleanedSlice bytes s)],
              ExtractResult.error ExtractError.emptyAfterCleaning))
    ∧ (∀ s, findZipStart bytes = some s → (cleanedSlice bytes s).length ≠ 0 →
        ∀ xs, downloadAndExtractFs bytes false xs
          = ([("release.zip", cleanedSlice bytes s)],
              ExtractResult.error ExtractError.unzipFailed)) := by
  refine ⟨?_, ?_, ?_, ?_, ?_, ?_, ?_⟩
  · intro s
    rw [findZipStart, loopFind_some_iff]
    constructor
    · rintro ⟨-, h2, h3, h4⟩
      exact ⟨by omega, h3, fun j hj => h4 j (Nat.zero_le j) hj⟩
    · rintro ⟨h2, h3, h4⟩
      exact ⟨Nat.zero_le s, by omega, h3, fun j _ hj => h4 j hj⟩
  · rw [findZipStart, loopFind_none_iff]
    constructor
    · intro h j hj
      exact h j (Nat.zero_le j) (by omega)
    · intro h j _ hj
      exact h j (by omega)
  · intro hall
    rw [findBoundaryEnd]
    cases hlen : bytes.length with
    | zero => rfl
    | succ n =>
      have hnone : loopFindDown (dashPairAt bytes) n = none :=
        (loopFindDown_none_iff _ _).mpr (fun j _ => hall j)
      show (match loopFindDown (dashPairAt bytes) n with
        | some i => i - 1
        | none => n + 1) = n + 1
      rw [hnone]
  · intro i hpi hlast
    have hi : i < bytes.length := by
      have h1 : (bytes[i]? == some 0x2d) = true := by
        rw [dashPairAt, Bool.and_eq_true, Bool.and_eq_true] at hpi
        exact hpi.1
      rw [beq_iff_eq] at h1
      obtain ⟨hlt, -⟩ := List.getElem?_eq_some_iff.mp h1
      exact hlt
    rw [findBoundaryEnd]
    cases hlen : bytes.length with
    | zero => omega
    | succ n =>
      have hsome : loopFindDown (dashPairAt bytes) n = some i :=
        (loopFindDown_some_iff _ _ _).mpr
          ⟨by omega, hpi, fun j hj _ => hlast j hj⟩
      show (match loopFindDown (dashPairAt bytes) n with
        | some i => i - 1
        | none => n + 1) = i - 1
      rw [hsome]
  · intro h uOk xs
    rw [downloadAndExtractFs, h]
  · intro s hs h0 uOk xs
    rw [downloadAndExtractFs, hs]
    show (if (cleanedSlice bytes s).length = 0 then
        ([("release.zip", cleanedSlice bytes s)],
          ExtractResult.error ExtractError.emptyAfterCleaning)
      else if uOk = false then
        ([("release.zip", cleanedSlice bytes s)],
          ExtractResult.error ExtractError.unzipFailed)
      else (xs, ExtractResult.ok)) = _
    rw [if_pos h0]
  · intro s hs h0 xs
    rw [downloadAndExtractFs, hs]
    show (if (cleanedSlice bytes s).length = 0 then
        ([("release.zip", cleanedSlice bytes s)],
          ExtractResult.error ExtractError.emptyAfterCleaning)
      else if (false : Bool) = false then
        ([("release.zip", cleanedSlice bytes s)],
          ExtractResult.error ExtractError.unzipFailed)
      else (xs, ExtractResult.ok)) = _
    rw [if_neg h0, if_pos rfl]

/-- C7 witness: the amended characterization applied to a concrete buffer
whose magic begins at offset 1, inside the searched range. -/
theorem extractor_offset_characterization_witness :
    findZipStart [0, 0x50, 0x4b, 0x03, 0x04, 9, 9, 9, 9] = some 1 :=
  ((extractor_offset_characterization [0, 0x50, 0x4b, 0x03, 0x04, 9, 9, 9, 9]).1 1).mpr
    ⟨by decide, by decide, fun j hj => by
      have hj0 : j = 0 := by omega
      rw [hj0]
      decide⟩

/-- C8 counterexample: the claim states that after a failed extraction the
staging directory contains no files from the attempt.  The downloaded
archive is written to `<targetDir>/release.zip` before the scan, and on the
no-magic failure path nothing deletes it (part_002 deletes it only after a
successful unzip, line 160), so the staging directory still holds it. -/
theorem failed_extraction_keeps_archive_file :
    (downloadAndExtractFs [0, 1, 2] true []).2
      = ExtractResult.error ExtractError.zipHeaderNotFound
    ∧ (downloadAndExtractFs [0, 1, 2] true []).1 ≠ [] := by
  decide

/-- C8 (amended): for every downloaded buffer with no ZIP magic in the
searched range, extraction fails with the header-not-found error and the
staging directory contains no extracted files — only the intermediate
archive `release.zip` holding the raw downloaded bytes, which is left in
place for diagnosis. -/
theorem no_magic_fails_and_leaves_only_archive (bytes : List Nat) (uOk : Bool)
    (xs : List (String × List Nat)) (h : findZipStart bytes = none) :
    downloadAndExtractFs bytes uOk xs
      = ([("release.zip", bytes)], ExtractResult.error ExtractError.zipHeaderNotFound) := by
  rw [downloadAndExtractFs, h]

/-- C8 witness: the amended theorem applied to a concrete magic-free
buffer. -/
theorem no_magic_fails_and_leaves_only_archive_witness :
    downloadAndExtractFs [9, 9] true [("f", [1])]
      = ([("release.zip", [9, 9])], ExtractResult.error ExtractError.zipHeaderNotFound) :=
  no_magic_fails_and_leaves_only_archive [9, 9] true [("f", [1])] (by decide)

/-- C4: the request passes signature verification iff the header equals
`sha256=` followed by the digest of the body under the shared secret; the
handler answers 401 exactly on a mismatch (missing and empty headers
included), with no core invocation and the body `Invalid signature`. -/
theorem signature_verification_iff (hm : String → String → String) (cfg : Config)
    (body : String) (payload : WebhookPayload) (sig ev : Option String)
    (dOk : Bool) :
    (verifySignature hm cfg.webhookSecret sig body = true
      ↔ sig = some ("sha256=" ++ hm cfg.webhookSecret body))
    ∧ ((handleRelease hm cfg body payload sig ev dOk).status = 401
      ↔ sig ≠ some ("sha256=" ++ hm cfg.webhookSecret body))
    ∧ (sig ≠ some ("sha256=" ++ hm cfg.webhookSecret body) →
        (handleRelease hm cfg body payload sig ev dOk).deployCalled = none
        ∧ (handleRelease hm cfg body payload sig ev dOk).body
            = "Invalid signature") := by
  have hv : verifySignature hm cfg.webhookSecret sig body = true
      ↔ sig = some ("sha256=" ++ hm cfg.webhookSecret body) := by
    cases sig with
    | none => simp [verifySignature]
    | some s =>
      by_cases hs : s = ""
      · subst hs
        rw [verifySignature]
        rw [if_pos rfl]
        constructor
        · intro h; cases h
        · intro h
          rw [Option.some_inj] at h
          exact absurd h.symm (sha256_prefixed_ne_empty _)
      · rw [verifySignature]
        rw [if_neg hs]
        rw [decide_eq_true_eq, Option.some_inj]
  have hvf : sig ≠ some ("sha256=" ++ hm cfg.webhookSecret body) →
      verifySignature hm cfg.webhookSecret sig body = false := by
    intro hne
    cases hb : verifySignature hm cfg.webhookSecret sig body
    · rfl
    · exact absurd (hv.mp hb) hne
  refine ⟨hv, ?_, ?_⟩
  · constructor
    · intro h401 heq
      exact handleRelease_status_ne_401_of_verified hm cfg body payload sig ev dOk
        (hv.mpr heq) h401
    · intro hne
      rw [handleRelease, if_pos (hvf hne)]
  · intro hne
    rw [handleRelease, if_pos (hvf hne)]
    exact ⟨rfl, rfl⟩

/-- C4 witness: a concrete mismatched signature header is answered with
status 401, no core invocation, and the body `Invalid signature`. -/
theorem signature_verification_iff_witness :
    (handleRelease hmacDemo cfgProd "bd" payloadProdRepo (some "sha256=bad")
        (some "release") true).status = 401
    ∧ (handleRelease hmacDemo cfgProd "bd" payloadProdRepo (some "sha256=bad")
        (some "release") true).deployCalled = none :=
  ⟨((signature_verification_iff hmacDemo cfgProd "bd" payloadProdRepo
      (some "sha256=bad") (some "release") true).2.1).mpr (by decide),
    ((signature_verification_iff hmacDemo cfgProd "bd" payloadProdRepo
      (some "sha256=bad") (some "release") true).2.2 (by decide)).1⟩

/-- C9 counterexample: the claim states that a project declaring a branch
filter different from the event's target commitish is answered 400 without
invoking the core.  The guard (part_000 line 103) tests
`project.branch && ...`, so a declared empty-string filter is falsy and
skipped: the event on `main` deploys with status 200 instead. -/
theorem empty_branch_filter_not_enforced :
    projEmptyBranch.branch = some ""
    ∧ payloadMain.targetCommitish ≠ ""
    ∧ (handleRelease hmacDemo cfgEmptyBranch "b" payloadMain
        (some ("sha256=" ++ hmacDemo "sec" "b")) (some "release") true).status = 200
    ∧ (handleRelease hmacDemo cfgEmptyBranch "b" payloadMain
        (some ("sha256=" ++ hmacDemo "sec" "b")) (some "release") true).deployCalled
        ≠ none := by
  decide

/-- C9 (amended): for every release event that passes the signature,
event-type and action checks and matches a project declaring a non-empty
branch filter different from the event's target commitish, the handler
answers 400 and the core is not invoked (so no release directory is
created and the current pointer is untouched). -/
theorem branch_mismatch_returns_400 (hm : String → String → String) (cfg : Config)
    (body : String) (payload : WebhookPayload) (sig ev : Option String)
    (dOk : Bool) (project : ProjectConfig) (b : String)
    (hsig : verifySignature hm cfg.webhookSecret sig body = true)
    (hev : ev = some "release")
    (hact : payload.action = "published")
    (hproj : findProject cfg.projects payload.repoFullName = some project)
    (hbr : project.branch = some b) (hbne : b ≠ "")
    (hdiff : payload.targetCommitish ≠ b) :
    (handleRelease hm cfg body payload sig ev dOk).status = 400
    ∧ (handleRelease hm cfg body payload sig ev dOk).deployCalled = none := by
  have hbm : branchMismatch project.branch payload.targetCommitish = true := by
    rw [hbr]
    show (if b = "" then false else decide (payload.targetCommitish ≠ b)) = true
    rw [if_neg hbne]
    exact decide_eq_true hdiff
  have hres : handleRelease hm cfg body payload sig ev dOk
      = { status := 400, body := "Branch mismatch", deployCalled := none } := by
    simp [handleRelease, hsig, hev, hact, hproj, hbm]
  rw [hres]
  exact ⟨rfl, rfl⟩

/-- C9 witness: the amended theorem applied to the concrete scenario of
the spec: branch filter `production`, event target commitish `main`. -/
theorem branch_mismatch_returns_400_witness :
    (handleRelease hmacDemo cfgProd "bd" payloadProdRepo
        (some ("sha256=" ++ hmacDemo "s2" "bd")) (some "release") true).status = 400
    ∧ (handleRelease hmacDemo cfgProd "bd" payloadProdRepo
        (some ("sha256=" ++ hmacDemo "s2" "bd")) (some "release") true).deployCalled
        = none :=
  branch_mismatch_returns_400 hmacDemo cfgProd "bd" payloadProdRepo
    (some ("sha256=" ++ hmacDemo "s2" "bd")) (some "release") true projProd
    "production" (by decide) rfl rfl (by decide) rfl (by decide) (by decide)

/-- C10: isDraft and isPrerelease are carried in the ReleaseInfo record but
never read by any deployment decision: two payloads differing only in the
draft/prerelease flags give the same handler status and the same
core-invocation decision, and two ReleaseInfo values differing only in
those flags give identical deploy runs. -/
theorem draft_prerelease_flags_not_read (hm : String → String → String)
    (cfg : Config) (body : String) (payload : WebhookPayload)
    (sig ev : Option String) (dOk : Bool) (d1 p1 d2 p2 : Bool)
    (cfg2 : ProjectConfig) (env : Env) (info : ReleaseInfo) (ts : String)
    (s0 : FsState) :
    ((handleRelease hm cfg body { payload with draft := d1, prerelease := p1 }
        sig ev dOk).status
      = (handleRelease hm cfg body { payload with draft := d2, prerelease := p2 }
        sig ev dOk).status)
    ∧ ((handleRelease hm cfg body { payload with draft := d1, prerelease := p1 }
        sig ev dOk).deployCalled.isSome
      = (handleRelease hm cfg body { payload with draft := d2, prerelease := p2 }
        sig ev dOk).deployCalled.isSome)
    ∧ (deployAttempt cfg2 env { info with isDraft := d1, isPrerelease := p1 } ts s0
      = deployAttempt cfg2 env { info with isDraft := d2, isPrerelease := p2 } ts s0) := by
  obtain ⟨a, rf, tn, zu, dr, pr, tc⟩ := payload
  obtain ⟨tn2, zu2, dr2, pr2, rn2, tc2⟩ := info
  refine ⟨?_, ?_, ?_⟩
  · rw [handleRelease, handleRelease]
    dsimp only
    repeat' split
    all_goals rfl
  · rw [handleRelease, handleRelease]
    dsimp only
    repeat' split
    all_goals rfl
  · rfl

end BunWh
